import Mathlib

/-!
Shallow embedding of the multi-strategy property matcher in
src/backend/deed_monitor/property_matcher.py.

Conventions of the embedding:
- Python dicts that are only read through lookup are modelled as association
  lists (List (key, value)) in insertion order; dict.get is List.lookup.
- Python Optional values are Lean Option; Python string truthiness (None and
  the empty string are falsy) is strTruthy.
- Python floats are modelled as rationals.
- Strings are ASCII in this domain, so str.lower / str.strip correspond to
  character-wise lowering and whitespace stripping (pyLower, pyStrip).
-/

namespace DeedMonitor

/-- Python truthiness of an optional string: None and the empty string are
falsy, any other string is truthy. -/
def strTruthy : Option String → Bool
  | some s => s ≠ ""
  | none => false

/-- Python str.lower() on the ASCII strings of this domain: lowercase each
character. -/
def pyLower (s : String) : String :=
  (s.toList.map Char.toLower).asString

/-- Python str.strip(): drop leading and trailing whitespace. -/
def pyStrip (s : String) : String :=
  (((s.toList.dropWhile Char.isWhitespace).reverse.dropWhile
    Char.isWhitespace).reverse).asString

/-- Python s.split('|') on the character list (splitting on every bar,
keeping empty pieces, as str.split with an explicit separator does). -/
def splitBar : List Char → List (List Char)
  | [] => [[]]
  | c :: cs =>
    if c = '|' then [] :: splitBar cs
    else
      match splitBar cs with
      | h :: t => (c :: h) :: t
      | [] => [[c]]

/-- Python s.replace(c, ''): removing every occurrence of the one-character
pattern c leaves exactly the characters different from c, in order. -/
def removeChar (s : String) (c : Char) : String :=
  (s.toList.filter (fun d => d ≠ c)).asString

/-- The identifier (APN) normalization used by the matcher:
apn.replace('-', '').replace(' ', '')  (property_matcher.py line 215 and the
watchlist cache build at line 650). -/
def normApn (apn : String) : String :=
  removeChar (removeChar apn '-') ' '

/-- The same normalization applied to an optional identifier:
calling .replace on Python None raises AttributeError, embedded as none. -/
def normApnOpt : Option String → Option String
  | none => none
  | some s => some (normApn s)

/-- A watchlist row (one entry of watchlist_cache).  Fields the matcher reads,
each optional because rows are plain dicts. -/
structure Entry where
  apn : Option String := none
  address : Option String := none
  city : Option String := none
deriving Repr, DecidableEq

/-- The MatchResult dataclass (property_matcher.py lines 42-50), with its
Python default field values. -/
structure MatchResult where
  matched : Bool
  watchlist_entry : Option Entry := none
  match_method : String := ""
  confidence : ℚ := 0
  matched_apn : Option String := none
  notes : String := ""
deriving Repr, DecidableEq

/-- A deed record as consumed through getattr(deed_record, field, None):
every field optional. -/
structure DeedRecord where
  apn : Option String := none
  lot_number : Option String := none
  tract_number : Option String := none
  city : Option String := none
  address : Option String := none
  documentary_transfer_tax : Option ℚ := none
deriving Repr, DecidableEq

/-- The watchlist cache: normalized APN -> entry, in insertion order. -/
abbrev Watchlist := List (String × Entry)

/-- The lot/tract cache: "lot|tract|city" -> APN, in insertion order. -/
abbrev LotTractCache := List (String × String)

/-- PropertyMatcher._match_by_apn (lines 213-228). -/
def matchByApn (wl : Watchlist) (apn : String) : MatchResult :=
  let apn_normalized := normApn apn
  match wl.lookup apn_normalized with
  | some entry =>
      { matched := true
        watchlist_entry := some entry
        match_method := "apn"
        confidence := 1
        matched_apn := some (entry.apn.getD apn)
        notes := "Direct APN match" }
  | none => { matched := false }

/-- city.lower() if city else '' applied to an optional city. -/
def cityLowerOf : Option String → String
  | some c => if c = "" then "" else pyLower c
  | none => ""

/-- The exact lot/tract cache key f"{lot_number}|{tract_number}|{city_lower}". -/
def exactLotTractKey (lot tract cityLower : String) : String :=
  lot ++ "|" ++ tract ++ "|" ++ cityLower

/-- The linear-scan condition of the city-agnostic fallback (lines 253-258):
the cache key splits on '|' into at least two parts whose first two components
equal the queried lot and tract. -/
def lotTractScanHit (lot tract : String) (kv : String × String) : Bool :=
  let parts := (splitBar kv.1.toList).map List.asString
  decide (2 ≤ parts.length) && (parts.getD 0 "" == lot) && (parts.getD 1 "" == tract)

/-- Resolution of (lot, tract, lowercased city) to an APN (lines 244-258):
exact-key dict lookup first; if the result is falsy, a linear scan over the
cache in insertion order ignoring the city component; if the scan also finds
nothing the value from the exact lookup (None or '') is kept. -/
def lotTractResolve (ltc : LotTractCache) (lot tract cityLower : String) :
    Option String :=
  let a0 := ltc.lookup (exactLotTractKey lot tract cityLower)
  if strTruthy a0 then a0
  else
    match ltc.find? (lotTractScanHit lot tract) with
    | some kv => some kv.2
    | none => a0

/-- PropertyMatcher._match_by_lot_tract (lines 230-283). -/
def matchByLotTract (wl : Watchlist) (ltc : LotTractCache)
    (lot tract : String) (city : Option String) : MatchResult :=
  if ltc = [] then
    { matched := false, notes := "Lot/Tract lookup not available" }
  else
    let city_lower := cityLowerOf city
    let apnRes := lotTractResolve ltc lot tract city_lower
    if strTruthy apnRes then
      let apn := apnRes.getD ""
      let apn_normalized := normApn apn
      match wl.lookup apn_normalized with
      | some entry =>
          { matched := true
            watchlist_entry := some entry
            match_method := "lot_tract"
            confidence := 95/100
            matched_apn := some apn
            notes := "Matched via Lot " ++ lot ++ ", Tract " ++ tract }
      | none =>
          { matched := false
            notes := "APN " ++ apn ++ " from Lot/Tract not in watchlist" }
    else
      { matched := false
        notes := "No APN found for Lot " ++ lot ++ ", Tract " ++ tract }

/-! ### Address normalization (_normalize_address, lines 346-385) -/

/-- A regex word character for the \b boundaries: [a-zA-Z0-9_] (ASCII inputs). -/
def isWordChar (c : Char) : Bool := c.isAlphanum || c = '_'

/-- \b holds before the match: start of string or preceding char not a word
character (all substituted patterns begin with a letter). -/
def prevBoundary : Option Char → Bool
  | none => true
  | some c => !isWordChar c

/-- Does s start with the pattern w? -/
def matchesAt (w s : List Char) : Bool := s.take w.length == w

/-- \b holds after the match: end of string or following char not a word
character (all substituted patterns end with a letter). -/
def afterBoundary (w s : List Char) : Bool :=
  match s.drop w.length with
  | [] => true
  | c :: _ => !isWordChar c

/-- One pass of re.sub(rf'\b{w}\b', r, s): scan left to right, replace each
non-overlapping whole-word occurrence of w, resume after the matched text
(the boundary context of later positions is the original text, whose last
consumed char is the last char of w).  fuel is the remaining input length. -/
def wordSubGo (w r : List Char) : Nat → Option Char → List Char → List Char
  | 0, _, s => s
  | _ + 1, _, [] => []
  | fuel + 1, prev, c :: rest =>
    if w ≠ [] && prevBoundary prev && matchesAt w (c :: rest) &&
        afterBoundary w (c :: rest) then
      r ++ wordSubGo w r fuel w.getLast? ((c :: rest).drop w.length)
    else
      c :: wordSubGo w r fuel (some c) rest

/-- re.sub(rf'\b{w}\b', r, s) for a nonempty alphabetic word w. -/
def wordSub (w r s : String) : String :=
  (wordSubGo w.toList r.toList s.toList.length none s.toList).asString

/-- The directional substitutions, in Python dict insertion order. -/
def directionalSubs : List (String × String) :=
  [("north", "n"), ("south", "s"), ("east", "e"), ("west", "w"),
   ("northeast", "ne"), ("northwest", "nw"),
   ("southeast", "se"), ("southwest", "sw")]

/-- The street-type substitutions, in Python dict insertion order. -/
def streetTypeSubs : List (String × String) :=
  [("street", "st"), ("avenue", "ave"), ("boulevard", "blvd"),
   ("drive", "dr"), ("road", "rd"), ("lane", "ln"),
   ("court", "ct"), ("circle", "cir"), ("place", "pl"),
   ("way", "wy"), ("parkway", "pkwy"), ("highway", "hwy")]

/-- re.sub(r'[.,#]', '', addr): drop periods, commas and hash signs. -/
def stripPunct (s : String) : String :=
  (s.toList.filter (fun c => c ≠ '.' && c ≠ ',' && c ≠ '#')).asString

/-- The whitespace-separated words of a character list (Python str.split()
with no arguments: runs of whitespace separate, no empty words). -/
def wsWords : List Char → List (List Char)
  | [] => []
  | c :: cs =>
    if c.isWhitespace then wsWords cs
    else
      match wsWords cs with
      | [] => [[c]]
      | w :: ws =>
        match cs with
        | [] => [[c]]
        | d :: _ => if d.isWhitespace then [c] :: w :: ws else (c :: w) :: ws

/-- ' '.join(words): single spaces between the pieces. -/
def joinSpace : List (List Char) → List Char
  | [] => []
  | [w] => w
  | w :: ws => w ++ ' ' :: joinSpace ws

/-- ' '.join(addr.split()): collapse whitespace runs, dropping leading and
trailing whitespace. -/
def collapseWhitespace (s : String) : String :=
  (joinSpace (wsWords s.toList)).asString

/-- PropertyMatcher._normalize_address (lines 346-385). -/
def normalizeAddress (address : String) : String :=
  if address = "" then ""
  else
    let a1 := pyStrip (pyLower address)
    let a2 := stripPunct a1
    let a3 := directionalSubs.foldl (fun a p => wordSub p.1 p.2 a) a2
    let a4 := streetTypeSubs.foldl (fun a p => wordSub p.1 p.2 a) a3
    collapseWhitespace a4

/-- re.match(r'^(\d+)', s): the leading run of digits ('' when there is none,
in which case the Python match object is None / falsy). -/
def leadingNum (s : String) : String :=
  (s.toList.takeWhile Char.isDigit).asString

/-! ### difflib.SequenceMatcher(None, a, b).ratio()

The matcher's base similarity score (line 394) is the stdlib sequence
matcher.  isjunk is None, so the junk set bjunk stays empty and the junk
extension loops of find_longest_match are no-ops; autojunk removes from the
index b2j every character occurring more than len(b)//100 + 1 times when
len(b) >= 200. -/

/-- b2j.get(c, []): the ascending indices of c in b, emptied when c is
"popular" under the autojunk rule. -/
def b2jIndices (b : List Char) (c : Char) : List Nat :=
  let all := (List.range b.length).filter (fun j => b.getD j 'a' == c)
  if 200 ≤ b.length ∧ b.length / 100 + 1 < all.length then [] else all

/-- The running best block of find_longest_match. -/
structure Flm where
  besti : Nat
  bestj : Nat
  bestsize : Nat
deriving Repr, DecidableEq

/-- newj2len[j] lookup with default 0 (j2len.get(j-1, 0)). -/
def j2get : List (Nat × Nat) → Nat → Nat
  | [], _ => 0
  | (j', k) :: m, j => if j' = j then k else j2get m j

/-- The inner loop of find_longest_match over the candidate js for row i:
skip j < blo, stop at j >= bhi, extend the diagonal run ending at (i, j) and
track the best block.  Returns the new j2len rows and best state. -/
def flmInner (blo bhi i : Nat) (j2len : List (Nat × Nat)) :
    List Nat → List (Nat × Nat) → Flm → List (Nat × Nat) × Flm
  | [], newm, st => (newm, st)
  | j :: js, newm, st =>
    if j < blo then flmInner blo bhi i j2len js newm st
    else if bhi ≤ j then (newm, st)
    else
      let k := (if j = 0 then 0 else j2get j2len (j - 1)) + 1
      let st' : Flm :=
        if st.bestsize < k then ⟨i + 1 - k, j + 1 - k, k⟩ else st
      flmInner blo bhi i j2len js ((j, k) :: newm) st'

/-- The outer loop of find_longest_match over the rows i of the a-window. -/
def flmOuter (a b : List Char) (blo bhi : Nat) :
    List Nat → List (Nat × Nat) → Flm → Flm
  | [], _, st => st
  | i :: is, j2len, st =>
    let p := flmInner blo bhi i j2len (b2jIndices b (a.getD i 'a')) [] st
    flmOuter a b blo bhi is p.1 p.2

/-- The leftward (non-junk) extension loop; fuel bounds the iterations
(besti strictly decreases, so besti itself is enough fuel). -/
def extendLeft (a b : List Char) (alo blo : Nat) : Nat → Flm → Flm
  | 0, st => st
  | fuel + 1, st =>
    if alo < st.besti ∧ blo < st.bestj ∧
        a.getD (st.besti - 1) 'a' = b.getD (st.bestj - 1) 'a' then
      extendLeft a b alo blo fuel ⟨st.besti - 1, st.bestj - 1, st.bestsize + 1⟩
    else st

/-- The rightward (non-junk) extension loop; ahi is enough fuel. -/
def extendRight (a b : List Char) (ahi bhi : Nat) : Nat → Flm → Flm
  | 0, st => st
  | fuel + 1, st =>
    if st.besti + st.bestsize < ahi ∧ st.bestj + st.bestsize < bhi ∧
        a.getD (st.besti + st.bestsize) 'a' = b.getD (st.bestj + st.bestsize) 'a' then
      extendRight a b ahi bhi fuel ⟨st.besti, st.bestj, st.bestsize + 1⟩
    else st

/-- SequenceMatcher.find_longest_match on the windows a[alo:ahi], b[blo:bhi]
(isjunk None, so the two junk extension loops are identities). -/
def findLongestMatch (a b : List Char) (alo ahi blo bhi : Nat) : Flm :=
  let st0 : Flm := ⟨alo, blo, 0⟩
  let st1 := flmOuter a b blo bhi (List.range' alo (ahi - alo)) [] st0
  let st2 := extendLeft a b alo blo st1.besti st1
  extendRight a b ahi bhi ahi st2

/-- The total size of the blocks collected by get_matching_blocks: the queue
in the Python code enumerates exactly this recursive decomposition (the pop
order only affects the order of the collected blocks, not their sizes).
Each recursive call strictly shrinks (ahi - alo) + (bhi - blo), so fuel
la + lb + 1 always suffices. -/
def matchesSum (a b : List Char) : Nat → Nat → Nat → Nat → Nat → Nat
  | 0, _, _, _, _ => 0
  | fuel + 1, alo, ahi, blo, bhi =>
    let m := findLongestMatch a b alo ahi blo bhi
    if m.bestsize = 0 then 0
    else
      m.bestsize
      + (if alo < m.besti ∧ blo < m.bestj then
          matchesSum a b fuel alo m.besti blo m.bestj else 0)
      + (if m.besti + m.bestsize < ahi ∧ m.bestj + m.bestsize < bhi then
          matchesSum a b fuel (m.besti + m.bestsize) ahi (m.bestj + m.bestsize) bhi
         else 0)

/-- The total matched size M of SequenceMatcher(None, s1, s2). -/
def seqMatches (s1 s2 : String) : Nat :=
  matchesSum s1.toList s2.toList (s1.toList.length + s2.toList.length + 1)
    0 s1.toList.length 0 s2.toList.length

/-- SequenceMatcher(None, s1, s2).ratio() = 2.0 * M / T where M is the total
matched size and T the total length (1.0 when both strings are empty). -/
def seqRatio (s1 s2 : String) : ℚ :=
  if s1.toList.length + s2.toList.length = 0 then 1
  else 2 * (seqMatches s1 s2 : ℚ) / (s1.toList.length + s2.toList.length)

/-- PropertyMatcher._address_similarity (lines 387-404): the sequence-matcher
ratio, plus a flat 0.1 bonus capped at 1 when both leading street numbers
exist and coincide. -/
def addressSimilarity (addr1 addr2 : String) : ℚ :=
  if leadingNum addr1 ≠ "" ∧ leadingNum addr2 ≠ "" ∧
      leadingNum addr1 = leadingNum addr2 then
    min 1 (seqRatio addr1 addr2 + 1/10)
  else seqRatio addr1 addr2

/-! ### Address index and strategy (_build_address_index, _match_by_address) -/

/-- One candidate stored in the address index (lines 110-116). -/
structure Candidate where
  apn_normalized : String
  address : String
  normalized_address : String
  city : String
  entry : Entry
deriving Repr, DecidableEq

/-- The key and candidate an individual watchlist row contributes to the
address index (lines 91-116): skipped when the address is missing/empty or
has no leading street number. -/
def addressKeyOf (apnNormalized : String) (e : Entry) : Option (String × Candidate) :=
  let address := e.address.getD ""
  let city := e.city.getD ""
  if address = "" then none
  else
    let normalized_addr := normalizeAddress address
    let city_lower := if city = "" then "" else pyLower city
    let street_num := leadingNum normalized_addr
    if street_num = "" then none
    else
      some (street_num ++ "|" ++ city_lower,
        { apn_normalized := apnNormalized
          address := address
          normalized_address := normalized_addr
          city := city
          entry := e })

/-- The address index built in _build_address_index, embedded by its lookup
function: the per-key candidate list of the Python dict is exactly the
watchlist rows contributing that key, in cache insertion order
(self._address_index.get(key, [])). -/
def addressIndexAt (wl : Watchlist) (key : String) : List Candidate :=
  wl.filterMap (fun p =>
    match addressKeyOf p.1 p.2 with
    | some kc => if kc.1 = key then some kc.2 else none
    | none => none)

/-- The best-candidate loop of _match_by_address (lines 317-329): strict
improvement (score > best_score), starting from (None, 0.0). -/
def bestCandidate (query : String) :
    List Candidate → Option Candidate × ℚ → Option Candidate × ℚ
  | [], acc => acc
  | c :: cs, acc =>
    let score := addressSimilarity query c.normalized_address
    if acc.2 < score then bestCandidate query cs (some c, score)
    else bestCandidate query cs acc

/-- f"{x:.1%}" on a non-negative score: x * 1000 rounded half-to-even to an
integer number of percent tenths, printed with one decimal and a percent
sign.  This models CPython float formatting on the exact rational value. -/
def fmtPercent1 (x : ℚ) : String :=
  let n : ℤ := ⌊x * 1000⌋
  let frac : ℚ := x * 1000 - n
  let r : ℤ :=
    if frac < 1/2 then n
    else if 1/2 < frac then n + 1
    else if n % 2 = 0 then n else n + 1
  toString (r / 10) ++ "." ++ toString (r % 10) ++ "%"

/-- The note of a below-threshold address attempt (lines 341-344). -/
def belowThresholdNote (bestScore : ℚ) : String :=
  "Best address match score " ++ fmtPercent1 bestScore ++
    " below threshold " ++ fmtPercent1 (85/100)

/-- The final step of _match_by_address (lines 331-344): given the
(best_match, best_score) pair produced by the candidate loop, declare a match
iff a best candidate exists and its score clears min_confidence = 0.85. -/
def addressDecision (address : String) (best : Option Candidate × ℚ) :
    MatchResult :=
  match best with
  | (some bm, best_score) =>
    if 85/100 ≤ best_score then
      { matched := true
        watchlist_entry := some bm.entry
        match_method := "address"
        confidence := best_score
        matched_apn := bm.entry.apn
        notes := "Address match: '" ++ address ++ "' ~ '" ++ bm.address ++
          "' (" ++ fmtPercent1 best_score ++ ")" }
    else
      { matched := false, notes := belowThresholdNote best_score }
  | (none, best_score) =>
      { matched := false, notes := belowThresholdNote best_score }

/-- PropertyMatcher._match_by_address (lines 285-344), min_confidence at its
default 0.85. -/
def matchByAddress (wl : Watchlist) (address city : String) : MatchResult :=
  let normalized_addr := normalizeAddress address
  let city_lower := if city = "" then "" else pyLower city
  let street_num := leadingNum normalized_addr
  if street_num = "" then
    { matched := false, notes := "Could not extract street number from address" }
  else
    let key := street_num ++ "|" ++ city_lower
    let candidates := addressIndexAt wl key
    if candidates = [] then
      { matched := false
        notes := "No addresses in watchlist match " ++ street_num ++ " in " ++ city }
    else
      addressDecision address (bestCandidate normalized_addr candidates (none, 0))

/-! ### The dispatcher PropertyMatcher.match (lines 169-211) -/

/-- PropertyMatcher.match: the three strategies tried in order, each only when
its input fields are truthy, returning the first strategy result whose
matched flag is set; otherwise the final non-match.  (The documentary
transfer tax block at lines 198-203 only logs and cannot affect the result.) -/
def matchDeed (wl : Watchlist) (ltc : LotTractCache) (r : DeedRecord) :
    MatchResult :=
  let noMatch : MatchResult :=
    { matched := false, notes := "No matching strategy succeeded" }
  let tryAddress : MatchResult :=
    if strTruthy r.address ∧ strTruthy r.city then
      let res := matchByAddress wl (r.address.getD "") (r.city.getD "")
      if res.matched then res else noMatch
    else noMatch
  let tryLotTract : MatchResult :=
    if strTruthy r.lot_number ∧ strTruthy r.tract_number then
      let res := matchByLotTract wl ltc (r.lot_number.getD "")
        (r.tract_number.getD "") r.city
      if res.matched then res else tryAddress
    else tryAddress
  if strTruthy r.apn then
    let res := matchByApn wl (r.apn.getD "")
    if res.matched then res else tryLotTract
  else tryLotTract

/-! ### Verification predicates -/

/-- The running best block lies inside the search window. -/
def FlmBounded (alo ahi blo bhi : Nat) (st : Flm) : Prop :=
  alo ≤ st.besti ∧ blo ≤ st.bestj ∧
    st.besti + st.bestsize ≤ ahi ∧ st.bestj + st.bestsize ≤ bhi

/-- Invariant of a j2len row map when row i is about to be processed: every
recorded diagonal run ends inside the b-window and is no longer than the
distance to either window start. -/
def J2Inv (alo blo bhi i : Nat) (m : List (Nat × Nat)) : Prop :=
  ∀ j k, (j, k) ∈ m → blo ≤ j ∧ j < bhi ∧ k + blo ≤ j + 1 ∧ k + alo ≤ i

end DeedMonitor

namespace DeedMonitor

/-! ## Lemmas: the sequence-matcher ratio lies in [0, 1] -/

theorem j2get_zero_or_mem (m : List (Nat × Nat)) (j : Nat) :
    j2get m j = 0 ∨ (j, j2get m j) ∈ m := by
  induction m with
  | nil => exact Or.inl rfl
  | cons p m ih =>
    obtain ⟨j', k⟩ := p
    by_cases h : j' = j
    · subst h
      right
      simp [j2get]
    · rcases ih with h0 | hm
      · left
        simpa [j2get, h] using h0
      · right
        simp only [j2get, h, if_false]
        exact List.mem_cons_of_mem _ hm

theorem flmInner_inv (alo ahi blo bhi i : Nat) (j2len : List (Nat × Nat))
    (hi1 : alo ≤ i) (hi2 : i < ahi) (hj : J2Inv alo blo bhi i j2len) :
    ∀ (js : List Nat) (newm : List (Nat × Nat)) (st : Flm),
      J2Inv alo blo bhi (i + 1) newm → FlmBounded alo ahi blo bhi st →
      J2Inv alo blo bhi (i + 1) (flmInner blo bhi i j2len js newm st).1 ∧
        FlmBounded alo ahi blo bhi (flmInner blo bhi i j2len js newm st).2 := by
  intro js
  induction js with
  | nil => intro newm st h1 h2; exact ⟨h1, h2⟩
  | cons j js ih =>
    intro newm st h1 h2
    by_cases hlt : j < blo
    · simpa [flmInner, hlt] using ih newm st h1 h2
    · by_cases hge : bhi ≤ j
      · simpa [flmInner, hlt, hge] using ⟨h1, h2⟩
      · have hblo : blo ≤ j := Nat.le_of_not_lt hlt
        have hbhi : j < bhi := Nat.lt_of_not_le hge
        simp only [flmInner, hlt, hge, if_false]
        set k := (if j = 0 then 0 else j2get j2len (j - 1)) + 1 with hkdef
        have hkb : k + blo ≤ j + 1 ∧ k + alo ≤ i + 1 := by
          by_cases h0 : j = 0
          · have hk1 : k = 1 := by simp [hkdef, h0]
            have hblo0 : blo = 0 := by omega
            omega
          · have hk1 : k = j2get j2len (j - 1) + 1 := by simp [hkdef, h0]
            rcases j2get_zero_or_mem j2len (j - 1) with hz | hmem
            · omega
            · have hb := hj _ _ hmem
              omega
        have h1' : J2Inv alo blo bhi (i + 1) ((j, k) :: newm) := by
          intro j' k' hmem
          rcases List.mem_cons.mp hmem with heq | hmem'
          · injection heq with e1 e2
            subst e1; subst e2
            exact ⟨hblo, hbhi, hkb.1, hkb.2⟩
          · exact h1 _ _ hmem'
        have h2' : FlmBounded alo ahi blo bhi
            (if st.bestsize < k then ⟨i + 1 - k, j + 1 - k, k⟩ else st) := by
          split
          · refine ⟨?_, ?_, ?_, ?_⟩
            · show alo ≤ i + 1 - k
              omega
            · show blo ≤ j + 1 - k
              omega
            · show i + 1 - k + k ≤ ahi
              omega
            · show j + 1 - k + k ≤ bhi
              omega
          · exact h2
        exact ih ((j, k) :: newm) _ h1' h2'

theorem flmOuter_bounded (a b : List Char) (alo ahi blo bhi : Nat) :
    ∀ (n lo : Nat) (j2len : List (Nat × Nat)) (st : Flm),
      alo ≤ lo → lo + n ≤ ahi →
      J2Inv alo blo bhi lo j2len → FlmBounded alo ahi blo bhi st →
      FlmBounded alo ahi blo bhi
        (flmOuter a b blo bhi (List.range' lo n) j2len st) := by
  intro n
  induction n with
  | zero => intro lo j2len st _ _ _ h; simpa [flmOuter] using h
  | succ n ih =>
    intro lo j2len st h1 h2 hj hb
    have hrange : List.range' lo (n + 1) = lo :: List.range' (lo + 1) n := rfl
    rw [hrange]
    simp only [flmOuter]
    have hlt : lo < ahi := by omega
    have hstep := flmInner_inv alo ahi blo bhi lo j2len h1 hlt hj
      (b2jIndices b (a.getD lo 'a')) [] st (by intro j k h; simp at h) hb
    have hj' : J2Inv alo blo bhi (lo + 1)
        (flmInner blo bhi lo j2len (b2jIndices b (a.getD lo 'a')) [] st).1 :=
      hstep.1
    exact ih (lo + 1) _ _ (by omega) (by omega) hj' hstep.2

theorem extendLeft_bounded (a b : List Char) (alo ahi blo bhi : Nat) :
    ∀ (fuel : Nat) (st : Flm), FlmBounded alo ahi blo bhi st →
      FlmBounded alo ahi blo bhi (extendLeft a b alo blo fuel st) := by
  intro fuel
  induction fuel with
  | zero => intro st h; exact h
  | succ fuel ih =>
    intro st h
    simp only [extendLeft]
    split
    · rename_i hcond
      obtain ⟨c1, c2, c3⟩ := hcond
      apply ih
      obtain ⟨b1, b2, b3, b4⟩ := h
      refine ⟨?_, ?_, ?_, ?_⟩
      · show alo ≤ st.besti - 1
        omega
      · show blo ≤ st.bestj - 1
        omega
      · show st.besti - 1 + (st.bestsize + 1) ≤ ahi
        omega
      · show st.bestj - 1 + (st.bestsize + 1) ≤ bhi
        omega
    · exact h

theorem extendRight_bounded (a b : List Char) (alo ahi blo bhi : Nat) :
    ∀ (fuel : Nat) (st : Flm), FlmBounded alo ahi blo bhi st →
      FlmBounded alo ahi blo bhi (extendRight a b ahi bhi fuel st) := by
  intro fuel
  induction fuel with
  | zero => intro st h; exact h
  | succ fuel ih =>
    intro st h
    simp only [extendRight]
    split
    · rename_i hcond
      obtain ⟨c1, c2, c3⟩ := hcond
      apply ih
      obtain ⟨b1, b2, b3, b4⟩ := h
      refine ⟨?_, ?_, ?_, ?_⟩
      · show alo ≤ st.besti
        omega
      · show blo ≤ st.bestj
        omega
      · show st.besti + (st.bestsize + 1) ≤ ahi
        omega
      · show st.bestj + (st.bestsize + 1) ≤ bhi
        omega
    · exact h

theorem findLongestMatch_bounded (a b : List Char) (alo ahi blo bhi : Nat)
    (h1 : alo ≤ ahi) (h2 : blo ≤ bhi) :
    FlmBounded alo ahi blo bhi (findLongestMatch a b alo ahi blo bhi) := by
  unfold findLongestMatch
  apply extendRight_bounded
  apply extendLeft_bounded
  apply flmOuter_bounded a b alo ahi blo bhi (ahi - alo) alo
  · exact Nat.le_refl alo
  · omega
  · intro j k h; simp at h
  · refine ⟨Nat.le_refl alo, Nat.le_refl blo, ?_, ?_⟩
    · show alo + 0 ≤ ahi
      omega
    · show blo + 0 ≤ bhi
      omega

theorem matchesSum_le (a b : List Char) :
    ∀ (fuel alo ahi blo bhi : Nat), alo ≤ ahi → blo ≤ bhi →
      matchesSum a b fuel alo ahi blo bhi ≤ ahi - alo ∧
        matchesSum a b fuel alo ahi blo bhi ≤ bhi - blo := by
  intro fuel
  induction fuel with
  | zero => intro alo ahi blo bhi _ _; simp [matchesSum]
  | succ fuel ih =>
    intro alo ahi blo bhi h1 h2
    obtain ⟨hb1, hb2, hb3, hb4⟩ := findLongestMatch_bounded a b alo ahi blo bhi h1 h2
    simp only [matchesSum]
    set m := findLongestMatch a b alo ahi blo bhi with hm
    by_cases hz : m.bestsize = 0
    · simp [hz]
    · simp only [hz, if_false]
      have hL : (if alo < m.besti ∧ blo < m.bestj then
            matchesSum a b fuel alo m.besti blo m.bestj else 0) ≤ m.besti - alo ∧
          (if alo < m.besti ∧ blo < m.bestj then
            matchesSum a b fuel alo m.besti blo m.bestj else 0) ≤ m.bestj - blo := by
        split
        · exact ih alo m.besti blo m.bestj hb1 hb2
        · simp
      have hR : (if m.besti + m.bestsize < ahi ∧ m.bestj + m.bestsize < bhi then
            matchesSum a b fuel (m.besti + m.bestsize) ahi (m.bestj + m.bestsize) bhi
          else 0) ≤ ahi - (m.besti + m.bestsize) ∧
          (if m.besti + m.bestsize < ahi ∧ m.bestj + m.bestsize < bhi then
            matchesSum a b fuel (m.besti + m.bestsize) ahi (m.bestj + m.bestsize) bhi
          else 0) ≤ bhi - (m.bestj + m.bestsize) := by
        split
        · exact ih _ _ _ _ hb3 hb4
        · simp
      obtain ⟨hL1, hL2⟩ := hL
      obtain ⟨hR1, hR2⟩ := hR
      constructor <;> omega

theorem seqMatches_le (s1 s2 : String) :
    seqMatches s1 s2 ≤ s1.toList.length ∧ seqMatches s1 s2 ≤ s2.toList.length := by
  have h := matchesSum_le s1.toList s2.toList
    (s1.toList.length + s2.toList.length + 1) 0 s1.toList.length 0 s2.toList.length
    (Nat.zero_le _) (Nat.zero_le _)
  simpa [seqMatches] using h

theorem seqRatio_nonneg (s1 s2 : String) : 0 ≤ seqRatio s1 s2 := by
  unfold seqRatio
  split
  · norm_num
  · exact div_nonneg (by positivity) (by positivity)

theorem seqRatio_le_one (s1 s2 : String) : seqRatio s1 s2 ≤ 1 := by
  unfold seqRatio
  split
  · norm_num
  · rename_i htot
    have hM := seqMatches_le s1 s2
    have hpos : (0 : ℚ) < (s1.toList.length : ℚ) + (s2.toList.length : ℚ) := by
      have h0 : 0 < s1.toList.length + s2.toList.length := Nat.pos_of_ne_zero htot
      exact_mod_cast h0
    rw [div_le_one hpos]
    have : 2 * seqMatches s1 s2 ≤ s1.toList.length + s2.toList.length := by omega
    exact_mod_cast this

theorem addressSimilarity_nonneg (a b : String) : 0 ≤ addressSimilarity a b := by
  unfold addressSimilarity
  have h := seqRatio_nonneg a b
  split
  · simp only [le_min_iff]
    constructor
    · norm_num
    · linarith
  · exact h

theorem addressSimilarity_le_one (a b : String) : addressSimilarity a b ≤ 1 := by
  unfold addressSimilarity
  have h := seqRatio_le_one a b
  split
  · exact min_le_left _ _
  · exact h

/-! ## Lemmas: the best-candidate loop of the address strategy -/

theorem bestCandidate_fst_some (q : String) :
    ∀ (cs : List Candidate) (c : Candidate) (s : ℚ),
      ((bestCandidate q cs (some c, s)).1).isSome := by
  intro cs
  induction cs with
  | nil => intro c s; rfl
  | cons c' cs ih =>
    intro c s
    simp only [bestCandidate]
    split
    · exact ih c' _
    · exact ih c s

theorem bestCandidate_none_eq (q : String) :
    ∀ (cs : List Candidate) (s : ℚ),
      (bestCandidate q cs (none, s)).1 = none → bestCandidate q cs (none, s) = (none, s) := by
  intro cs
  induction cs with
  | nil => intro s _; rfl
  | cons c' cs ih =>
    intro s h
    simp only [bestCandidate] at h ⊢
    split
    · rename_i hlt
      rw [if_pos hlt] at h
      have := bestCandidate_fst_some q cs c' (addressSimilarity q c'.normalized_address)
      rw [h] at this
      simp at this
    · rename_i hlt
      rw [if_neg hlt] at h
      exact ih s h

theorem bestCandidate_score_mono (q : String) :
    ∀ (cs : List Candidate) (acc : Option Candidate × ℚ),
      acc.2 ≤ (bestCandidate q cs acc).2 := by
  intro cs
  induction cs with
  | nil => intro acc; exact le_refl _
  | cons c' cs ih =>
    intro acc
    simp only [bestCandidate]
    split
    · rename_i hlt
      exact le_trans (le_of_lt hlt) (ih (some c', _))
    · exact ih acc

theorem bestCandidate_ge_mem (q : String) :
    ∀ (cs : List Candidate) (acc : Option Candidate × ℚ) (c : Candidate),
      c ∈ cs → addressSimilarity q c.normalized_address ≤ (bestCandidate q cs acc).2 := by
  intro cs
  induction cs with
  | nil => intro acc c h; simp at h
  | cons c' cs ih =>
    intro acc c hmem
    rcases List.mem_cons.mp hmem with heq | htail
    · subst heq
      simp only [bestCandidate]
      split
      · rename_i hlt
        exact bestCandidate_score_mono q cs (some c, _)
      · rename_i hlt
        exact le_trans (le_of_not_lt hlt) (bestCandidate_score_mono q cs acc)
    · simp only [bestCandidate]
      split
      · exact ih _ c htail
      · exact ih acc c htail

theorem bestCandidate_le_one (q : String) :
    ∀ (cs : List Candidate) (acc : Option Candidate × ℚ),
      acc.2 ≤ 1 → (bestCandidate q cs acc).2 ≤ 1 := by
  intro cs
  induction cs with
  | nil => intro acc h; exact h
  | cons c' cs ih =>
    intro acc h
    simp only [bestCandidate]
    split
    · exact ih _ (addressSimilarity_le_one q c'.normalized_address)
    · exact ih acc h

theorem bestCandidate_spec (q : String) :
    ∀ (cs : List Candidate) (acc : Option Candidate × ℚ) (c : Candidate) (s : ℚ),
      bestCandidate q cs acc = (some c, s) →
      acc = (some c, s) ∨
        (c ∈ cs ∧ s = addressSimilarity q c.normalized_address) := by
  intro cs
  induction cs with
  | nil => intro acc c s h; exact Or.inl h
  | cons c' cs ih =>
    intro acc c s h
    simp only [bestCandidate] at h
    by_cases hlt : acc.2 < addressSimilarity q c'.normalized_address
    · rw [if_pos hlt] at h
      rcases ih _ c s h with heq | ⟨hmem, hs⟩
      · injection heq with e1 e2
        injection e1 with e1
        right
        subst e1
        exact ⟨List.mem_cons_self _ _, e2.symm⟩
      · exact Or.inr ⟨List.mem_cons_of_mem _ hmem, hs⟩
    · rw [if_neg hlt] at h
      rcases ih acc c s h with heq | ⟨hmem, hs⟩
      · exact Or.inl heq
      · exact Or.inr ⟨List.mem_cons_of_mem _ hmem, hs⟩

/-! ## Lemmas: per-strategy result shapes -/

theorem matchByApn_matched (wl : Watchlist) (apn : String)
    (h : (matchByApn wl apn).matched = true) :
    (matchByApn wl apn).match_method = "apn" ∧ (matchByApn wl apn).confidence = 1 := by
  simp only [matchByApn] at h ⊢
  cases hl : wl.lookup (normApn apn) with
  | none => rw [hl] at h; simp at h
  | some e => exact ⟨rfl, rfl⟩

theorem matchByApn_not_matched (wl : Watchlist) (apn : String)
    (h : (matchByApn wl apn).matched = false) :
    matchByApn wl apn = { matched := false } := by
  simp only [matchByApn] at h ⊢
  cases hl : wl.lookup (normApn apn) with
  | none => rfl
  | some e => rw [hl] at h; simp at h

theorem matchByLotTract_matched (wl : Watchlist) (ltc : LotTractCache)
    (lot tract : String) (city : Option String)
    (h : (matchByLotTract wl ltc lot tract city).matched = true) :
    (matchByLotTract wl ltc lot tract city).match_method = "lot_tract" ∧
      (matchByLotTract wl ltc lot tract city).confidence = 95/100 := by
  simp only [matchByLotTract] at h ⊢
  by_cases he : ltc = []
  · rw [if_pos he] at h; simp at h
  · rw [if_neg he] at h ⊢
    by_cases ht : strTruthy (lotTractResolve ltc lot tract (cityLowerOf city))
    · simp only [ht, if_true] at h ⊢
      cases hl : wl.lookup (normApn ((lotTractResolve ltc lot tract (cityLowerOf city)).getD "")) with
      | none => rw [hl] at h; simp at h
      | some e => exact ⟨rfl, rfl⟩
    · simp only [ht] at h
      simp at h

theorem matchByLotTract_not_matched (wl : Watchlist) (ltc : LotTractCache)
    (lot tract : String) (city : Option String)
    (h : (matchByLotTract wl ltc lot tract city).matched = false) :
    (matchByLotTract wl ltc lot tract city).watchlist_entry = none ∧
      (matchByLotTract wl ltc lot tract city).match_method = "" ∧
      (matchByLotTract wl ltc lot tract city).confidence = 0 ∧
      (matchByLotTract wl ltc lot tract city).matched_apn = none := by
  simp only [matchByLotTract] at h ⊢
  by_cases he : ltc = []
  · rw [if_pos he]; exact ⟨rfl, rfl, rfl, rfl⟩
  · rw [if_neg he] at h ⊢
    by_cases ht : strTruthy (lotTractResolve ltc lot tract (cityLowerOf city))
    · simp only [ht, if_true] at h ⊢
      cases hl : wl.lookup (normApn ((lotTractResolve ltc lot tract (cityLowerOf city)).getD "")) with
      | none => exact ⟨rfl, rfl, rfl, rfl⟩
      | some e => rw [hl] at h; simp at h
    · simp only [ht]
      exact ⟨rfl, rfl, rfl, rfl⟩

theorem addressDecision_matched (address : String) (best : Option Candidate × ℚ)
    (h : (addressDecision address best).matched = true) :
    (addressDecision address best).match_method = "address" ∧
      (addressDecision address best).confidence = best.2 ∧ 85/100 ≤ best.2 := by
  obtain ⟨o, s⟩ := best
  cases o with
  | none => simp [addressDecision] at h
  | some bm =>
    by_cases hge : (85:ℚ)/100 ≤ s
    · simp only [addressDecision, if_pos hge]
      refine ⟨by trivial, by trivial, hge⟩
    · simp only [addressDecision, if_neg hge] at h
      exact absurd h (by simp)

theorem addressDecision_not_matched (address : String) (best : Option Candidate × ℚ)
    (h : (addressDecision address best).matched = false) :
    (addressDecision address best).watchlist_entry = none ∧
      (addressDecision address best).match_method = "" ∧
      (addressDecision address best).confidence = 0 ∧
      (addressDecision address best).matched_apn = none := by
  obtain ⟨o, s⟩ := best
  cases o with
  | none => exact ⟨rfl, rfl, rfl, rfl⟩
  | some bm =>
    by_cases hge : (85:ℚ)/100 ≤ s
    · simp only [addressDecision, if_pos hge] at h
      exact absurd h (by simp)
    · simp only [addressDecision, if_neg hge]
      refine ⟨by trivial, by trivial, by trivial, by trivial⟩

theorem matchByAddress_matched (wl : Watchlist) (address city : String)
    (h : (matchByAddress wl address city).matched = true) :
    (matchByAddress wl address city).match_method = "address" ∧
      85/100 ≤ (matchByAddress wl address city).confidence ∧
      (matchByAddress wl address city).confidence ≤ 1 := by
  simp only [matchByAddress] at h ⊢
  by_cases hs : leadingNum (normalizeAddress address) = ""
  · rw [if_pos hs] at h; simp at h
  · rw [if_neg hs] at h ⊢
    by_cases hc : addressIndexAt wl
        (leadingNum (normalizeAddress address) ++ "|" ++
          (if city = "" then "" else pyLower city)) = []
    · rw [if_pos hc] at h; simp at h
    · rw [if_neg hc] at h ⊢
      obtain ⟨m1, m2, m3⟩ := addressDecision_matched address _ h
      refine ⟨m1, ?_, ?_⟩
      · rw [m2]; exact m3
      · rw [m2]
        exact bestCandidate_le_one _ _ _ (by norm_num)

theorem matchByAddress_not_matched (wl : Watchlist) (address city : String)
    (h : (matchByAddress wl address city).matched = false) :
    (matchByAddress wl address city).watchlist_entry = none ∧
      (matchByAddress wl address city).match_method = "" ∧
      (matchByAddress wl address city).confidence = 0 ∧
      (matchByAddress wl address city).matched_apn = none := by
  simp only [matchByAddress] at h ⊢
  by_cases hs : leadingNum (normalizeAddress address) = ""
  · rw [if_pos hs]; exact ⟨rfl, rfl, rfl, rfl⟩
  · rw [if_neg hs] at h ⊢
    by_cases hc : addressIndexAt wl
        (leadingNum (normalizeAddress address) ++ "|" ++
          (if city = "" then "" else pyLower city)) = []
    · rw [if_pos hc]; exact ⟨rfl, rfl, rfl, rfl⟩
    · rw [if_neg hc] at h ⊢
      exact addressDecision_not_matched address _ h

/-- The dispatcher returns the first matched strategy result, or the final
non-match. -/
theorem matchDeed_cases (wl : Watchlist) (ltc : LotTractCache) (r : DeedRecord) :
    (matchDeed wl ltc r = matchByApn wl (r.apn.getD "") ∧
      (matchByApn wl (r.apn.getD "")).matched = true) ∨
    (matchDeed wl ltc r =
        matchByLotTract wl ltc (r.lot_number.getD "") (r.tract_number.getD "") r.city ∧
      (matchByLotTract wl ltc (r.lot_number.getD "") (r.tract_number.getD "")
        r.city).matched = true) ∨
    (matchDeed wl ltc r = matchByAddress wl (r.address.getD "") (r.city.getD "") ∧
      (matchByAddress wl (r.address.getD "") (r.city.getD "")).matched = true) ∨
    matchDeed wl ltc r = { matched := false, notes := "No matching strategy succeeded" } := by
  unfold matchDeed
  by_cases h1 : strTruthy r.apn
  · by_cases h1m : (matchByApn wl (r.apn.getD "")).matched
    · left
      simp [h1, h1m]
    · simp only [h1, if_true, h1m, Bool.false_eq_true, if_false]
      by_cases h2 : strTruthy r.lot_number ∧ strTruthy r.tract_number
      · by_cases h2m : (matchByLotTract wl ltc (r.lot_number.getD "")
            (r.tract_number.getD "") r.city).matched
        · right; left
          simp [h2, h2m]
        · simp only [h2, if_true, h2m, Bool.false_eq_true, if_false]
          by_cases h3 : strTruthy r.address ∧ strTruthy r.city
          · by_cases h3m : (matchByAddress wl (r.address.getD "")
                (r.city.getD "")).matched
            · right; right; left
              simp [h3, h3m]
            · right; right; right
              simp [h3, h3m]
          · right; right; right
            simp [h3]
      · simp only [h2, if_false]
        by_cases h3 : strTruthy r.address ∧ strTruthy r.city
        · by_cases h3m : (matchByAddress wl (r.address.getD "")
              (r.city.getD "")).matched
          · right; right; left
            simp [h3, h3m]
          · right; right; right
            simp [h3, h3m]
        · right; right; right
          simp [h3]
  · simp only [h1, Bool.false_eq_true, if_false]
    by_cases h2 : strTruthy r.lot_number ∧ strTruthy r.tract_number
    · by_cases h2m : (matchByLotTract wl ltc (r.lot_number.getD "")
          (r.tract_number.getD "") r.city).matched
      · right; left
        simp [h2, h2m]
      · simp only [h2, if_true, h2m, Bool.false_eq_true, if_false]
        by_cases h3 : strTruthy r.address ∧ strTruthy r.city
        · by_cases h3m : (matchByAddress wl (r.address.getD "")
              (r.city.getD "")).matched
          · right; right; left
            simp [h3, h3m]
          · right; right; right
            simp [h3, h3m]
        · right; right; right
          simp [h3]
    · simp only [h2, if_false]
      by_cases h3 : strTruthy r.address ∧ strTruthy r.city
      · by_cases h3m : (matchByAddress wl (r.address.getD "")
            (r.city.getD "")).matched
        · right; right; left
          simp [h3, h3m]
        · right; right; right
          simp [h3, h3m]
      · right; right; right
        simp [h3]

/-! ## Claim theorems -/

/-- C1: for every deed record whose identifier is present (a nonempty string)
and normalizes to a key of the watchlist index, match returns that entry with
match_method "apn", matched true and confidence 1, regardless of any
lot/tract or address data the record also carries (no later strategy is
attempted after this success). -/
theorem C1_apn_priority (wl : Watchlist) (ltc : LotTractCache) (r : DeedRecord)
    (s : String) (e : Entry)
    (hs : r.apn = some s) (hne : s ≠ "") (hl : wl.lookup (normApn s) = some e) :
    (matchDeed wl ltc r).matched = true ∧
      (matchDeed wl ltc r).match_method = "apn" ∧
      (matchDeed wl ltc r).confidence = 1 ∧
      (matchDeed wl ltc r).watchlist_entry = some e := by
  have htr : strTruthy r.apn = true := by simp [strTruthy, hs, hne]
  have hgd : r.apn.getD "" = s := by simp [hs]
  have happn : matchByApn wl s =
      { matched := true, watchlist_entry := some e, match_method := "apn",
        confidence := 1, matched_apn := some (e.apn.getD s),
        notes := "Direct APN match" } := by
    simp [matchByApn, hl]
  simp [matchDeed, htr, hgd, happn]

/-- C1 witness: a deed with identifier, a conflicting secondary-key mapping
pointing to another watched parcel, and address data, still matches by apn. -/
theorem C1_apn_priority_witness :
    (matchDeed
        [("12345678", { apn := some "123-456-78", address := some "100 Industrial Way", city := some "Anaheim" }),
         ("99999999", { apn := some "999-999-99", address := some "1 Other St", city := some "Orange" })]
        [("5|100|orange", "999-999-99")]
        { apn := some "123 456 78", lot_number := some "5",
          tract_number := some "100", city := some "Orange",
          address := some "1 Other St" }).matched = true ∧
      (matchDeed
        [("12345678", { apn := some "123-456-78", address := some "100 Industrial Way", city := some "Anaheim" }),
         ("99999999", { apn := some "999-999-99", address := some "1 Other St", city := some "Orange" })]
        [("5|100|orange", "999-999-99")]
        { apn := some "123 456 78", lot_number := some "5",
          tract_number := some "100", city := some "Orange",
          address := some "1 Other St" }).match_method = "apn" ∧
      (matchDeed
        [("12345678", { apn := some "123-456-78", address := some "100 Industrial Way", city := some "Anaheim" }),
         ("99999999", { apn := some "999-999-99", address := some "1 Other St", city := some "Orange" })]
        [("5|100|orange", "999-999-99")]
        { apn := some "123 456 78", lot_number := some "5",
          tract_number := some "100", city := some "Orange",
          address := some "1 Other St" }).confidence = 1 ∧
      (matchDeed
        [("12345678", { apn := some "123-456-78", address := some "100 Industrial Way", city := some "Anaheim" }),
         ("99999999", { apn := some "999-999-99", address := some "1 Other St", city := some "Orange" })]
        [("5|100|orange", "999-999-99")]
        { apn := some "123 456 78", lot_number := some "5",
          tract_number := some "100", city := some "Orange",
          address := some "1 Other St" }).watchlist_entry =
        some { apn := some "123-456-78", address := some "100 Industrial Way", city := some "Anaheim" } :=
  C1_apn_priority _ _ _ "123 456 78"
    { apn := some "123-456-78", address := some "100 Industrial Way", city := some "Anaheim" }
    rfl (by decide) (by decide)

/-- C2 counterexample: the matcher normalization does not remove every
non-alphanumeric character: a period survives, so the claimed
strip-everything normalization disagrees with the code, and an identifier
written with periods fails to match a watchlist keyed by its alphanumeric
form. -/
theorem C2_counterexample :
    normApn "1.23" = "1.23" ∧
      normApn "1.23" ≠ ("1.23".toList.filter (fun c => c.isAlphanum)).asString ∧
      (matchByApn [("123", { apn := some "1.2.3" })] "1.2.3").matched = false := by
  refine ⟨by decide, by decide, by decide⟩

/-- C2 amended: the normalization removes exactly hyphens and spaces,
preserving order and case of the remaining characters; hence any two strings
agreeing after deletion of hyphens and spaces normalize identically
(re-inserting hyphen/space delimiters is invisible to normalization). -/
theorem C2_amended (a : String) :
    normApn a = (a.toList.filter (fun c => c ≠ '-' ∧ c ≠ ' ')).asString ∧
    ∀ b : String,
      b.toList.filter (fun c => c ≠ '-' ∧ c ≠ ' ') =
        a.toList.filter (fun c => c ≠ '-' ∧ c ≠ ' ') →
      normApn b = normApn a := by
  have hchar : ∀ s : String,
      normApn s = (s.toList.filter (fun c => c ≠ '-' ∧ c ≠ ' ')).asString := by
    intro s
    unfold normApn removeChar
    have h1 : ((s.toList.filter (fun d => d ≠ '-')).asString).toList =
        s.toList.filter (fun d => d ≠ '-') := rfl
    rw [h1, List.filter_filter]
    congr 1
    apply List.filter_congr
    intro c _
    by_cases hd : c = '-' <;> by_cases hsp : c = ' ' <;> simp [hd, hsp]
  refine ⟨hchar a, fun b hb => ?_⟩
  rw [hchar a, hchar b, hb]

/-- C2 amended witness: the hyphen/space round-trip at a concrete identifier. -/
theorem C2_amended_witness : normApn "123-456 78" = normApn "12345678" :=
  (C2_amended "12345678").2 "123-456 78" (by decide)

/-- C3: secondary-key resolution prefers the exact lot|tract|city key (any
nonempty cached value under that key is returned untouched); only when the
exact key is absent does the city-agnostic linear scan run, returning the
first cache entry (in insertion order) whose lot and tract parts match; in
particular (5,100,Orange)->A plus (5,100,Anaheim)->B resolves city Orange
to A. -/
theorem C3_secondary_key (ltc : LotTractCache) (lot tract cityLower : String) :
    (∀ A : String, A ≠ "" →
        ltc.lookup (exactLotTractKey lot tract cityLower) = some A →
        lotTractResolve ltc lot tract cityLower = some A) ∧
    (ltc.lookup (exactLotTractKey lot tract cityLower) = none →
        lotTractResolve ltc lot tract cityLower =
          (ltc.find? (lotTractScanHit lot tract)).map Prod.snd) ∧
    lotTractResolve [("5|100|orange", "A"), ("5|100|anaheim", "B")] "5" "100"
        (cityLowerOf (some "Orange")) = some "A" := by
  refine ⟨?_, ?_, by decide⟩
  · intro A hA hlk
    simp [lotTractResolve, hlk, strTruthy, hA]
  · intro hlk
    cases hf : ltc.find? (lotTractScanHit lot tract) with
    | none => simp [lotTractResolve, hlk, strTruthy, hf]
    | some kv => simp [lotTractResolve, hlk, strTruthy, hf]

/-- C3 witness: the exact-key preference applied at the concrete cache of the
claim. -/
theorem C3_secondary_key_witness :
    lotTractResolve [("5|100|orange", "A"), ("5|100|anaheim", "B")] "5" "100"
        "orange" = some "A" :=
  (C3_secondary_key [("5|100|orange", "A"), ("5|100|anaheim", "B")]
      "5" "100" "orange").1 "A" (by decide) (by decide)

/-- C6: a lot/tract query that resolves to an APN absent from the watchlist
yields a non-match whose note names the resolved APN; an unresolvable
lot/tract yields the distinct no-APN-found note; the two notes can never
coincide. -/
theorem C6_lot_tract_unwatched (wl : Watchlist) (ltc : LotTractCache)
    (lot tract : String) (city : Option String) :
    (∀ a : String, ltc ≠ [] →
        lotTractResolve ltc lot tract (cityLowerOf city) = some a → a ≠ "" →
        wl.lookup (normApn a) = none →
        matchByLotTract wl ltc lot tract city =
          { matched := false,
            notes := "APN " ++ a ++ " from Lot/Tract not in watchlist" }) ∧
    (ltc ≠ [] →
        strTruthy (lotTractResolve ltc lot tract (cityLowerOf city)) = false →
        matchByLotTract wl ltc lot tract city =
          { matched := false,
            notes := "No APN found for Lot " ++ lot ++ ", Tract " ++ tract }) ∧
    (∀ a l t : String,
        "APN " ++ a ++ " from Lot/Tract not in watchlist" ≠
          "No APN found for Lot " ++ l ++ ", Tract " ++ t) := by
  refine ⟨?_, ?_, ?_⟩
  · intro a hne hres ha hlk
    have hsa : strTruthy (some a) = true := by simp [strTruthy, ha]
    simp [matchByLotTract, hne, hres, hsa, hlk]
  · intro hne hfalse
    simp [matchByLotTract, hne, hfalse]
  · intro a l t h
    have h2 := congrArg String.data h
    simp only [String.data_append] at h2
    simp at h2

/-- C6 witness: a resolvable lot/tract whose APN is not on the (empty)
watchlist produces the mapped-but-unwatched note. -/
theorem C6_lot_tract_unwatched_witness :
    matchByLotTract [] [("5|100|orange", "555-01-02")] "5" "100" (some "Orange") =
      { matched := false,
        notes := "APN " ++ "555-01-02" ++ " from Lot/Tract not in watchlist" } :=
  (C6_lot_tract_unwatched [] [("5|100|orange", "555-01-02")] "5" "100"
      (some "Orange")).1 "555-01-02" (by decide) (by decide) (by decide) rfl

/-- C7: a deed record supplying no identifier, no complete lot/tract pair and
no address+city combination is unmatched with the empty method and the
no-strategy note (every field combination yields a MatchResult: the embedded
matcher is a total function, never an exception). -/
theorem C7_no_strategy (wl : Watchlist) (ltc : LotTractCache) (r : DeedRecord)
    (h1 : strTruthy r.apn = false)
    (h2 : strTruthy r.lot_number = false ∨ strTruthy r.tract_number = false)
    (h3 : strTruthy r.address = false ∨ strTruthy r.city = false) :
    matchDeed wl ltc r =
      { matched := false, notes := "No matching strategy succeeded" } ∧
      (matchDeed wl ltc r).match_method = "" ∧
      (matchDeed wl ltc r).matched = false := by
  have hA : ¬(strTruthy r.lot_number ∧ strTruthy r.tract_number) := by
    rcases h2 with h | h <;> simp [h]
  have hB : ¬(strTruthy r.address ∧ strTruthy r.city) := by
    rcases h3 with h | h <;> simp [h]
  have he : matchDeed wl ltc r =
      { matched := false, notes := "No matching strategy succeeded" } := by
    simp [matchDeed, h1, hA, hB]
  exact ⟨he, by rw [he], by rw [he]⟩

/-- C7 witness: a deed carrying only a transfer-tax amount and a city. -/
theorem C7_no_strategy_witness :
    matchDeed [("123", { apn := some "1-2-3" })] [("5|100|orange", "A")]
        { city := some "Orange", documentary_transfer_tax := some 500000 } =
      { matched := false, notes := "No matching strategy succeeded" } :=
  (C7_no_strategy [("123", { apn := some "1-2-3" })] [("5|100|orange", "A")]
      { city := some "Orange", documentary_transfer_tax := some 500000 }
      rfl (Or.inl rfl) (Or.inl rfl)).1

/-- C8 counterexample: the normalization expression applied to a null
identifier does not return the empty string: in Python None.replace raises
AttributeError, embedded as none. -/
theorem C8_counterexample : normApnOpt none ≠ some "" := by decide

/-- C8 amended: normalization of the empty string returns the empty string
without error, but normalization of a null identifier errors (none) instead
of returning the empty string; the dispatcher's truthiness guard means a null
identifier simply skips the identifier strategy. -/
theorem C8_amended :
    normApnOpt (some "") = some "" ∧ normApnOpt none = none ∧
      strTruthy none = false := by
  refine ⟨by decide, by decide, by decide⟩

/-- C9: every successful match carries the strategy-determined confidence:
1 for apn, 0.95 for lot_tract, a value in [0.85, 1] for address; in all
cases at least 0.85. -/
theorem C9_confidence (wl : Watchlist) (ltc : LotTractCache) (r : DeedRecord)
    (h : (matchDeed wl ltc r).matched = true) :
    ((matchDeed wl ltc r).match_method = "apn" ∨
      (matchDeed wl ltc r).match_method = "lot_tract" ∨
      (matchDeed wl ltc r).match_method = "address") ∧
    ((matchDeed wl ltc r).match_method = "apn" →
      (matchDeed wl ltc r).confidence = 1) ∧
    ((matchDeed wl ltc r).match_method = "lot_tract" →
      (matchDeed wl ltc r).confidence = 95/100) ∧
    ((matchDeed wl ltc r).match_method = "address" →
      85/100 ≤ (matchDeed wl ltc r).confidence ∧
        (matchDeed wl ltc r).confidence ≤ 1) ∧
    85/100 ≤ (matchDeed wl ltc r).confidence := by
  rcases matchDeed_cases wl ltc r with ⟨he, hm⟩ | ⟨he, hm⟩ | ⟨he, hm⟩ | he
  · obtain ⟨f1, f2⟩ := matchByApn_matched _ _ hm
    rw [he]
    refine ⟨Or.inl f1, fun _ => f2, ?_, ?_, ?_⟩
    · intro hx; rw [f1] at hx; exact absurd hx (by decide)
    · intro hx; rw [f1] at hx; exact absurd hx (by decide)
    · rw [f2]; norm_num
  · obtain ⟨f1, f2⟩ := matchByLotTract_matched _ _ _ _ _ hm
    rw [he]
    refine ⟨Or.inr (Or.inl f1), ?_, fun _ => f2, ?_, ?_⟩
    · intro hx; rw [f1] at hx; exact absurd hx (by decide)
    · intro hx; rw [f1] at hx; exact absurd hx (by decide)
    · rw [f2]; norm_num
  · obtain ⟨f1, f2, f3⟩ := matchByAddress_matched _ _ _ hm
    rw [he]
    refine ⟨Or.inr (Or.inr f1), ?_, ?_, fun _ => ⟨f2, f3⟩, f2⟩
    · intro hx; rw [f1] at hx; exact absurd hx (by decide)
    · intro hx; rw [f1] at hx; exact absurd hx (by decide)
  · rw [he] at h
    exact absurd h (by decide)

/-- C9 witness: a concrete successful identifier match has confidence 1. -/
theorem C9_confidence_witness :
    (matchDeed [("12345678", { apn := some "123-456-78" })] []
        { apn := some "123-456-78" }).matched = true ∧
      (matchDeed [("12345678", { apn := some "123-456-78" })] []
        { apn := some "123-456-78" }).confidence = 1 := by
  have hm : (matchDeed [("12345678", { apn := some "123-456-78" })] []
      { apn := some "123-456-78" }).matched = true := by decide
  have hmethod : (matchDeed [("12345678", { apn := some "123-456-78" })] []
      { apn := some "123-456-78" }).match_method = "apn" := by decide
  exact ⟨hm, (C9_confidence _ _ _ hm).2.1 hmethod⟩

/-- C10: every unmatched dispatcher result carries the default confidence 0,
no watchlist entry, the empty method and no matched APN; a below-threshold
address attempt likewise reports confidence 0 (its best score lives only in
the note). -/
theorem C10_nonmatch_defaults (wl : Watchlist) (ltc : LotTractCache)
    (r : DeedRecord) (h : (matchDeed wl ltc r).matched = false) :
    (matchDeed wl ltc r).confidence = 0 ∧
      (matchDeed wl ltc r).watchlist_entry = none ∧
      (matchDeed wl ltc r).match_method = "" ∧
      (matchDeed wl ltc r).matched_apn = none ∧
      (∀ address city : String,
        (matchByAddress wl address city).matched = false →
        (matchByAddress wl address city).confidence = 0 ∧
          (matchByAddress wl address city).match_method = "") := by
  have htail : ∀ address city : String,
      (matchByAddress wl address city).matched = false →
      (matchByAddress wl address city).confidence = 0 ∧
        (matchByAddress wl address city).match_method = "" := by
    intro address city hf
    obtain ⟨_, g2, g3, _⟩ := matchByAddress_not_matched wl address city hf
    exact ⟨g3, g2⟩
  rcases matchDeed_cases wl ltc r with ⟨he, hm⟩ | ⟨he, hm⟩ | ⟨he, hm⟩ | he
  · rw [he] at h; rw [h] at hm; exact absurd hm (by decide)
  · rw [he] at h; rw [h] at hm; exact absurd hm (by decide)
  · rw [he] at h; rw [h] at hm; exact absurd hm (by decide)
  · rw [he]
    exact ⟨rfl, rfl, rfl, rfl, htail⟩

/-- C10 witness: the record with no usable field yields the all-default
non-match. -/
theorem C10_nonmatch_defaults_witness :
    (matchDeed [] [] { city := some "Orange" }).confidence = 0 ∧
      (matchDeed [] [] { city := some "Orange" }).match_method = "" :=
  ⟨(C10_nonmatch_defaults [] [] { city := some "Orange" } (by decide)).1,
    (C10_nonmatch_defaults [] [] { city := some "Orange" } (by decide)).2.2.1⟩

/-- Helper: the normalized forms of the two claim addresses coincide, and the
similarity of the common normal form with itself is 1 (ratio 1 plus the
street-number bonus, capped). -/
theorem addressSimilarity_main_self :
    addressSimilarity "123 n main st" "123 n main st" = 1 := by
  have hm : seqMatches "123 n main st" "123 n main st" = 13 := by decide
  have hl : "123 n main st".toList.length = 13 := by decide
  have hr : seqRatio "123 n main st" "123 n main st" = 1 := by
    unfold seqRatio
    rw [hm, hl]
    norm_num
  have hcond : leadingNum "123 n main st" ≠ "" ∧
      leadingNum "123 n main st" ≠ "" ∧
      leadingNum "123 n main st" = leadingNum "123 n main st" :=
    ⟨by decide, by decide, rfl⟩
  unfold addressSimilarity
  rw [if_pos hcond, hr]
  norm_num

/-- C4: when the bucket for the query address is nonempty, the loop selects a
candidate of maximal similarity, and the attempt succeeds exactly when the
best score reaches 0.85: then method is "address" and confidence equals the
best score; below the threshold the attempt is a non-match whose note
reports the best score. -/
theorem C4_address_selection (wl : Watchlist) (address city key : String)
    (cands : List Candidate) (best : Option Candidate × ℚ)
    (hs : leadingNum (normalizeAddress address) ≠ "")
    (hkey : key = leadingNum (normalizeAddress address) ++ "|" ++
      (if city = "" then "" else pyLower city))
    (hc : addressIndexAt wl key = cands) (hne : cands ≠ [])
    (hbest : bestCandidate (normalizeAddress address) cands (none, 0) = best) :
    (∀ c ∈ cands,
      addressSimilarity (normalizeAddress address) c.normalized_address ≤ best.2) ∧
    (∀ bm : Candidate, best.1 = some bm → bm ∈ cands ∧
      addressSimilarity (normalizeAddress address) bm.normalized_address = best.2) ∧
    (85/100 ≤ best.2 →
      (matchByAddress wl address city).matched = true ∧
      (matchByAddress wl address city).match_method = "address" ∧
      (matchByAddress wl address city).confidence = best.2) ∧
    (best.2 < 85/100 →
      (matchByAddress wl address city).matched = false ∧
      (matchByAddress wl address city).notes = belowThresholdNote best.2) := by
  have hmb : matchByAddress wl address city = addressDecision address best := by
    simp only [matchByAddress]
    rw [if_neg hs, ← hkey, hc, if_neg hne, hbest]
  obtain ⟨o, s⟩ := best
  refine ⟨?_, ?_, ?_, ?_⟩
  · intro c hcmem
    have hg := bestCandidate_ge_mem (normalizeAddress address) cands (none, 0) c hcmem
    rw [hbest] at hg
    exact hg
  · intro bm hb1
    have ho : o = some bm := hb1
    subst ho
    rcases bestCandidate_spec (normalizeAddress address) cands (none, 0) bm s hbest
      with heq | ⟨hmem, hsim⟩
    · exact absurd (congrArg Prod.fst heq) (by simp)
    · exact ⟨hmem, hsim.symm⟩
  · intro hge
    rw [hmb]
    cases o with
    | none =>
      have h0 := bestCandidate_none_eq (normalizeAddress address) cands 0
        (by rw [hbest])
      rw [hbest] at h0
      have hs0 : s = (0 : ℚ) := congrArg Prod.snd h0
      rw [hs0] at hge
      exact absurd hge (by norm_num)
    | some bm =>
      simp only [addressDecision]
      rw [if_pos hge]
      exact ⟨rfl, rfl, rfl⟩
  · intro hlt
    rw [hmb]
    cases o with
    | none => exact ⟨rfl, rfl⟩
    | some bm =>
      simp only [addressDecision]
      rw [if_neg (not_le.mpr hlt)]
      exact ⟨rfl, rfl⟩

/-- C4 witness: a one-candidate bucket whose best score is 1 produces an
address match with confidence equal to the best score. -/
theorem C4_address_selection_witness :
    (matchByAddress
        [("12345678", { apn := some "123-456-78", address := some "123 North Main Street", city := some "Orange" })]
        "123 N Main St" "Orange").matched = true ∧
      (matchByAddress
        [("12345678", { apn := some "123-456-78", address := some "123 North Main Street", city := some "Orange" })]
        "123 N Main St" "Orange").match_method = "address" ∧
      (matchByAddress
        [("12345678", { apn := some "123-456-78", address := some "123 North Main Street", city := some "Orange" })]
        "123 N Main St" "Orange").confidence =
        (some
            ({ apn_normalized := "12345678", address := "123 North Main Street",
               normalized_address := "123 n main st", city := "Orange",
               entry := { apn := some "123-456-78", address := some "123 North Main Street", city := some "Orange" } } : Candidate),
          (1 : ℚ)).2 := by
  have hna : normalizeAddress "123 N Main St" = "123 n main st" := by decide
  have hbest : bestCandidate (normalizeAddress "123 N Main St")
      [{ apn_normalized := "12345678", address := "123 North Main Street",
         normalized_address := "123 n main st", city := "Orange",
         entry := { apn := some "123-456-78", address := some "123 North Main Street", city := some "Orange" } }]
      (none, 0) =
      (some
        { apn_normalized := "12345678", address := "123 North Main Street",
          normalized_address := "123 n main st", city := "Orange",
          entry := { apn := some "123-456-78", address := some "123 North Main Street", city := some "Orange" } },
        (1 : ℚ)) := by
    rw [hna]
    simp only [bestCandidate]
    rw [addressSimilarity_main_self]
    rw [if_pos (by norm_num : (0 : ℚ) < 1)]
  exact (C4_address_selection
    [("12345678", { apn := some "123-456-78", address := some "123 North Main Street", city := some "Orange" })]
    "123 N Main St" "Orange" "123|orange"
    [{ apn_normalized := "12345678", address := "123 North Main Street",
       normalized_address := "123 n main st", city := "Orange",
       entry := { apn := some "123-456-78", address := some "123 North Main Street", city := some "Orange" } }]
    (some
      { apn_normalized := "12345678", address := "123 North Main Street",
        normalized_address := "123 n main st", city := "Orange",
        entry := { apn := some "123-456-78", address := some "123 North Main Street", city := some "Orange" } },
      (1 : ℚ))
    (by decide) (by decide) (by decide) (by decide) hbest).2.2.1
    (by norm_num)

/-- C5: the similarity score is the sequence-matcher ratio, which always lies
in [0, 1], raised by a flat 0.10 bonus capped at 1 exactly when both leading
street-number tokens exist and coincide; concretely the two claim addresses
normalize identically, score at least 0.85, and the address match succeeds. -/
theorem C5_similarity_spec :
    (∀ a b : String, 0 ≤ seqRatio a b ∧ seqRatio a b ≤ 1) ∧
    (∀ a b : String, addressSimilarity a b =
      if leadingNum a ≠ "" ∧ leadingNum b ≠ "" ∧ leadingNum a = leadingNum b then
        min 1 (seqRatio a b + 1/10)
      else seqRatio a b) ∧
    85/100 ≤ addressSimilarity (normalizeAddress "123 N Main St")
        (normalizeAddress "123 North Main Street") ∧
    (matchByAddress
        [("12345678", { apn := some "123-456-78", address := some "123 North Main Street", city := some "Orange" })]
        "123 N Main St" "Orange").matched = true := by
  have hna : normalizeAddress "123 N Main St" = "123 n main st" := by decide
  have hnb : normalizeAddress "123 North Main Street" = "123 n main st" := by decide
  refine ⟨fun a b => ⟨seqRatio_nonneg a b, seqRatio_le_one a b⟩, fun a b => rfl, ?_, ?_⟩
  · rw [hna, hnb, addressSimilarity_main_self]
    norm_num
  · have hbest : bestCandidate (normalizeAddress "123 N Main St")
        [{ apn_normalized := "12345678", address := "123 North Main Street",
           normalized_address := "123 n main st", city := "Orange",
           entry := { apn := some "123-456-78", address := some "123 North Main Street", city := some "Orange" } }]
        (none, 0) =
        (some
          { apn_normalized := "12345678", address := "123 North Main Street",
            normalized_address := "123 n main st", city := "Orange",
            entry := { apn := some "123-456-78", address := some "123 North Main Street", city := some "Orange" } },
          (1 : ℚ)) := by
      rw [hna]
      simp only [bestCandidate]
      rw [addressSimilarity_main_self]
      rw [if_pos (by norm_num : (0 : ℚ) < 1)]
    have hmb : matchByAddress
        [("12345678", { apn := some "123-456-78", address := some "123 North Main Street", city := some "Orange" })]
        "123 N Main St" "Orange" =
        addressDecision "123 N Main St"
          (some
            { apn_normalized := "12345678", address := "123 North Main Street",
              normalized_address := "123 n main st", city := "Orange",
              entry := { apn := some "123-456-78", address := some "123 North Main Street", city := some "Orange" } },
            (1 : ℚ)) := by
      simp only [matchByAddress]
      rw [if_neg (by decide : ¬leadingNum (normalizeAddress "123 N Main St") = "")]
      rw [show addressIndexAt
          [("12345678", { apn := some "123-456-78", address := some "123 North Main Street", city := some "Orange" })]
          (leadingNum (normalizeAddress "123 N Main St") ++ "|" ++
            (if ("Orange" : String) = "" then "" else pyLower "Orange")) =
          [{ apn_normalized := "12345678", address := "123 North Main Street",
             normalized_address := "123 n main st", city := "Orange",
             entry := { apn := some "123-456-78", address := some "123 North Main Street", city := some "Orange" } }]
        from by decide]
      rw [if_neg (by decide), hbest]
    rw [hmb]
    simp only [addressDecision]
    rw [if_pos (by norm_num : (85 : ℚ)/100 ≤ 1)]

end DeedMonitor
